import Mathlib

/-!
Verification of the greenlight per-client rate limiter.

This file is a shallow embedding of the rate-limiting core of the
greenlight API server: the token-bucket limiter used per client
(`golang.org/x/time/rate.Limiter`, as consumed by `cmd/api/middleware.go`),
the client registry (the `clients` map with `lastSeen` bookkeeping and the
background eviction sweep), and the admission gate (the closure returned by
`(*application).rateLimit`).

Modelling conventions:
- wall-clock time is a rational number of seconds (Go uses integer
  nanoseconds; all behaviour relevant here depends only on ordered-field
  arithmetic on durations);
- `float64` token counts are embedded as rationals (every constant that
  appears in the claims, 2, 4 and 0.5, is exactly representable in both);
- the `clients` map is an association list keyed by IP string;
- the mutex in `rateLimit` makes each request's registry section and each
  sweep atomic, so executions are embedded as sequences of atomic steps.
-/

namespace Greenlight

/--
State of one token-bucket limiter, embedding `rate.Limiter` from
`golang.org/x/time/rate` as used by `cmd/api/middleware.go`:
`limit` is the refill rate in tokens per second (`rate.Limit`, a `float64`),
`burst` the bucket capacity (`int`), `tokens` the current token count
(`float64`), and `last` the time of the last state update.
-/
structure Limiter where
  limit : ℚ
  burst : ℤ
  tokens : ℚ
  last : ℚ
deriving DecidableEq, Repr

/--
Creation of a limiter, `rate.NewLimiter(r, b)`.  The Go zero values (`tokens = 0`, `last` = the
zero time, far in the past) make the first `advance` fill the bucket to
`burst`, so a fresh limiter is observably full; we embed that directly as
`tokens = burst` at creation time `now`.
-/
def newLimiter (r : ℚ) (b : ℤ) (now : ℚ) : Limiter :=
  { limit := r, burst := b, tokens := (b : ℚ), last := now }

/--
Embedding of `Limiter.advance` from `golang.org/x/time/rate`: the token count implied by
the passage of time from `lim.last` to `now` — the stored count plus
`limit` tokens per elapsed second, capped at `burst` (the Go code caps the
elapsed duration at the time needed to fill the bucket, which yields the
same value), with `last` clamped up to `now` when `now` precedes it.
-/
def Limiter.advance (lim : Limiter) (now : ℚ) : ℚ :=
  let last := if now < lim.last then now else lim.last
  let tokens := lim.tokens + lim.limit * (now - last)
  if (lim.burst : ℚ) < tokens then (lim.burst : ℚ) else tokens

/--
Embedding of `lim.Allow()` at time `now` (`AllowN(now, 1)` / `reserveN(now, 1, 0)` in
`golang.org/x/time/rate`): advance the bucket to `now`; the request is
admitted iff `1 ≤ burst` and at least one whole token is available, in
which case one token is consumed and `last` is set to `now`; otherwise the
limiter state is left unchanged.
-/
def Limiter.allow (lim : Limiter) (now : ℚ) : Limiter × Bool :=
  let tokens := lim.advance now
  if 1 ≤ lim.burst ∧ 1 ≤ tokens then
    ({ lim with tokens := tokens - 1, last := now }, true)
  else
    (lim, false)

/--
Run a sequence of `Allow()` calls at the given times, returning the final
limiter state and the list of admission outcomes in call order.
-/
def allowSeq : Limiter → List ℚ → Limiter × List Bool
  | lim, [] => (lim, [])
  | lim, t :: ts =>
    match Limiter.allow lim t with
    | (lim1, b) =>
      match allowSeq lim1 ts with
      | (lim2, bs) => (lim2, b :: bs)

/--
Claim C1: a freshly created token bucket with `burst = 4`, `rps = 2` starts
full, so exactly 4 consecutive `Allow()` calls at `t = 0` succeed, the 5th
immediate call fails, and after waiting 0.5 seconds (1 token refilled at 2
tokens/second) exactly 1 more call succeeds (the call after it fails
again).
-/
theorem c1_bucket_burst4_rps2 :
    (allowSeq (newLimiter 2 4 0) [0, 0, 0, 0, 0, 1/2, 1/2]).2
      = [true, true, true, true, false, true, false] := by
  with_unfolding_all decide

/--
Rate-limiter configuration, embedding the `limiter` field of the `config`
struct in `cmd/api/main.go`: requests per second (`float64`), burst
(`int`), and the enable flag.  Read once at startup, immutable afterwards.
-/
structure Config where
  rps : ℚ
  burst : ℤ
  enabled : Bool
deriving DecidableEq, Repr

/-- The defaults registered in `cmd/api/main.go`: `rps = 2`, `burst = 4`,
`enabled = true`. -/
def defaultConfig : Config :=
  { rps := 2, burst := 4, enabled := true }

/--
Per-client state, embedding the `client` struct local to
`(*application).rateLimit` in `cmd/api/middleware.go`: a token-bucket
limiter and the last-seen time.
-/
structure Client where
  limiter : Limiter
  lastSeen : ℚ
deriving DecidableEq, Repr

/--
The `clients` map of `rateLimit`, embedded as an association list from IP
string to client state (Go map iteration order is irrelevant to every
operation used: keyed lookup, keyed insert, keyed update, and a filtering
sweep).
-/
abbrev Registry := List (String × Client)

/-- Keyed lookup in the `clients` map (`clients[ip]`, second result of the
comma-ok form). -/
def Registry.lookup : Registry → String → Option Client
  | [], _ => none
  | (k, c) :: rest, ip => if k = ip then some c else Registry.lookup rest ip

/-- Keyed in-place update of the `clients` map: apply `f` to the entry
stored under `ip`, leave every other entry unchanged. -/
def Registry.modify : Registry → String → (Client → Client) → Registry
  | [], _, _ => []
  | (k, c) :: rest, ip, f =>
    if k = ip then (k, f c) :: Registry.modify rest ip f
    else (k, c) :: Registry.modify rest ip f

/--
Lines 113–123 of `cmd/api/middleware.go`: if `ip` has no entry in the map,
insert a fresh `client` whose limiter is `rate.NewLimiter(rps, burst)` from
the config (its `lastSeen` is the Go zero value, embedded as `0`; it is
overwritten by `touch` before it can be read); otherwise leave the map
unchanged.
-/
def getOrCreate (cfg : Config) (reg : Registry) (ip : String) (now : ℚ) : Registry :=
  match Registry.lookup reg ip with
  | some _ => reg
  | none => reg ++ [(ip, { limiter := newLimiter cfg.rps cfg.burst now, lastSeen := 0 })]

/-- Line 125 of `cmd/api/middleware.go`:
`clients[ip].lastSeen = time.Now()`. -/
def touch (reg : Registry) (ip : String) (now : ℚ) : Registry :=
  Registry.modify reg ip fun c => { c with lastSeen := now }

/-- The write-back of the limiter state mutated in place by
`clients[ip].limiter.Allow()`. -/
def setLimiter (reg : Registry) (ip : String) (lim : Limiter) : Registry :=
  Registry.modify reg ip fun c => { c with limiter := lim }

/--
One pass of the background sweeper goroutine of `rateLimit` (lines 69–89 of
`cmd/api/middleware.go`) at time `now`: delete every client with
`time.Since(client.lastSeen) > threshold`, i.e. keep exactly the entries
whose idle age does not strictly exceed the threshold.  The source runs
this once a minute with `threshold = 3*time.Minute` (180 seconds).
-/
def sweep (threshold now : ℚ) (reg : Registry) : Registry :=
  reg.filter fun p => !decide (threshold < now - p.2.lastSeen)

/-- Index of the last `':'` in the list, if any (Go `last(hostPort, ':')`). -/
def lastColonIdx : List Char → Option ℕ
  | [] => none
  | c :: rest =>
    match lastColonIdx rest with
    | some i => some (i + 1)
    | none => if c = ':' then some 0 else none

/-- Index of the first occurrence of `c`, counting from `i`
(Go `byteIndex`). -/
def firstIdxOf : List Char → Char → ℕ → Option ℕ
  | [], _, _ => none
  | x :: rest, c, i => if x = c then some i else firstIdxOf rest c (i + 1)

/--
Embedding of `net.SplitHostPort` from the Go standard library (the identity-extraction
collaborator called at line 97 of `cmd/api/middleware.go`), on a list of
characters: the port starts after the last colon; a bracketed host must
have its `]` just before that colon; a bare host may not itself contain a
colon; stray `[` or `]` are rejected.  Errors are embedded as `none`.
-/
def splitHostPortList (s : List Char) : Option (List Char × List Char) :=
  match lastColonIdx s with
  | none => none
  | some i =>
    if s.head? = some '[' then
      match firstIdxOf s ']' 0 with
      | none => none
      | some e =>
        if e + 1 = s.length then none
        else if e + 1 = i then
          if (s.drop 1).any (· = '[') then none
          else if (s.drop (e + 1)).any (· = ']') then none
          else some ((s.drop 1).take (e - 1), s.drop (i + 1))
        else none
    else
      if (s.take i).any (· = ':') then none
      else if s.any (· = '[') then none
      else if s.any (· = ']') then none
      else some (s.take i, s.drop (i + 1))

/-- Embedding of `net.SplitHostPort` on strings: host and port on success, `none` on a
malformed transport address. -/
def splitHostPort (s : String) : Option (String × String) :=
  (splitHostPortList s.toList).map fun p => (String.mk p.1, String.mk p.2)

/--
An HTTP response as produced by the gate's own helpers: status code, the
headers set by `writeJSON`, and the JSON envelope body as a list of
top-level fields (key, rendered value).
-/
structure Response where
  status : ℕ
  headers : List (String × String)
  body : List (String × String)
deriving DecidableEq, Repr

/-- The error envelope built by `errorResponse` in `cmd/api/errors.go`: a
single-field JSON object whose only key is the string error. -/
def envelopeError (message : String) : List (String × String) :=
  [("error", message)]

/--
Embedding of `(*application).writeJSON` from `cmd/api/helpers.go`, restricted to what a
response observer sees: the extra headers passed in, a
`Content-Type: application/json` header, the given status code, and the
marshalled envelope body.
-/
def writeJSON (status : ℕ) (data : List (String × String))
    (headers : List (String × String)) : Response :=
  { status := status
    headers := headers ++ [("Content-Type", "application/json")]
    body := data }

/-- Embedding of `(*application).errorResponse` from `cmd/api/errors.go`: wrap the
message in the single-field error envelope and emit it with the given
status and no extra headers. -/
def errorResponse (status : ℕ) (message : String) : Response :=
  writeJSON status (envelopeError message) []

/-- The fixed message of `serverErrorResponse` in `cmd/api/errors.go`
(whitespace of the Go raw-string literal included). -/
def serverErrorMessage : String :=
  "\n\t\tthe server encountered a problem and could not process your request\n\t"

/-- Embedding of `(*application).serverErrorResponse` from `cmd/api/errors.go`: a 500
Internal Server Error carrying the fixed message (the triggering error is
logged, not sent). -/
def serverErrorResp : Response :=
  errorResponse 500 serverErrorMessage

/--
Modelled from the spec: `(*application).rateLimitExceededResponse` is
called at line 135 of `cmd/api/middleware.go` but its definition is not
among the source files; per the spec it surfaces the normal
rate-limit-exceeded condition as status 429 Too Many Requests with a fixed
human-readable message, no `Retry-After` header, through the single-field
error envelope of `errorResponse`.
-/
def rateLimitExceededResponse : Response :=
  errorResponse 429 "rate limit exceeded"

/-- Terminal state of the admission gate for one request. -/
inductive Outcome
  | forward
  | reject
  | error
deriving DecidableEq, Repr

/--
Observable result of one request through the gate: the registry afterwards,
the terminal state, the response written by the gate itself (`none` on
`forward`, where the downstream handler owns the response), and how many
times the wrapped `next` handler was invoked.
-/
structure StepResult where
  registry : Registry
  outcome : Outcome
  response : Option Response
  nextCalls : ℕ
deriving DecidableEq, Repr

/--
Lines 105–144 of `cmd/api/middleware.go`, the section guarded by the
mutex plus the ensuing dispatch: insert-if-absent, touch `lastSeen`, call
`clients[ip].limiter.Allow()`, then forward (calling `next.ServeHTTP`
once) or emit the 429 rejection.  The `none` branch of the lookup is dead
code: after `getOrCreate` the key is always present.
-/
def registryStep (cfg : Config) (reg : Registry) (ip : String) (now : ℚ) : StepResult :=
  match Registry.lookup (touch (getOrCreate cfg reg ip now) ip now) ip with
  | none =>
    { registry := touch (getOrCreate cfg reg ip now) ip now
      outcome := Outcome.reject
      response := some rateLimitExceededResponse
      nextCalls := 0 }
  | some c =>
    if (Limiter.allow c.limiter now).2 then
      { registry := setLimiter (touch (getOrCreate cfg reg ip now) ip now) ip
          (Limiter.allow c.limiter now).1
        outcome := Outcome.forward
        response := none
        nextCalls := 1 }
    else
      { registry := setLimiter (touch (getOrCreate cfg reg ip now) ip now) ip
          (Limiter.allow c.limiter now).1
        outcome := Outcome.reject
        response := some rateLimitExceededResponse
        nextCalls := 0 }

/--
The request handler returned by `(*application).rateLimit`
(`cmd/api/middleware.go`, lines 93–147): if the limiter is disabled the
request is forwarded untouched; otherwise the client IP is split out of
the transport peer address (a malformed address aborts with the 500 server
error), and the registry section decides between forwarding and the 429
rejection.
-/
def rateLimitHandle (cfg : Config) (reg : Registry) (remoteAddr : String) (now : ℚ) :
    StepResult :=
  if cfg.enabled then
    match splitHostPort remoteAddr with
    | none =>
      { registry := reg
        outcome := Outcome.error
        response := some serverErrorResp
        nextCalls := 0 }
    | some (ip, _) => registryStep cfg reg ip now
  else
    { registry := reg
      outcome := Outcome.forward
      response := none
      nextCalls := 1 }

/--
A whole sequence of requests through one gate closure, each request given
as (transport peer address, arrival time): thread the registry through
`rateLimitHandle` and record the outcomes in order.
-/
def runRequests (cfg : Config) : Registry → List (String × ℚ) → Registry × List Outcome
  | reg, [] => (reg, [])
  | reg, (addr, t) :: rest =>
    match rateLimitHandle cfg reg addr t with
    | r =>
      match runRequests cfg r.registry rest with
      | (rf, outs) => (rf, r.outcome :: outs)

/-- Iterated `getOrCreate` for one identity at the given call times: the
serialization, by the registry mutex, of N concurrent lookup-or-create
calls for the same client. -/
def getOrCreateN (cfg : Config) : Registry → String → List ℚ → Registry
  | reg, _, [] => reg
  | reg, ip, t :: ts => getOrCreateN cfg (getOrCreate cfg reg ip t) ip ts

/-- Number of entries the registry holds for identity `ip`. -/
def countKey (reg : Registry) (ip : String) : ℕ :=
  (reg.filter fun p => decide (p.1 = ip)).length

/-- Looking up `ip` after a keyed update applies the update to the looked-up
entry. -/
theorem lookup_modify (reg : Registry) (ip : String) (f : Client → Client) :
    Registry.lookup (Registry.modify reg ip f) ip = (Registry.lookup reg ip).map f := by
  induction reg with
  | nil => rfl
  | cons p rest ih =>
    obtain ⟨k, c⟩ := p
    by_cases hk : k = ip
    · simp [Registry.modify, Registry.lookup, hk]
    · simp [Registry.modify, Registry.lookup, hk, ih]

/-- Lookup walks into the right part of an append once the left part has no
entry for the key. -/
theorem lookup_append_of_none (reg1 reg2 : Registry) (ip : String)
    (h : Registry.lookup reg1 ip = none) :
    Registry.lookup (reg1 ++ reg2) ip = Registry.lookup reg2 ip := by
  induction reg1 with
  | nil => rfl
  | cons p rest ih =>
    obtain ⟨k, c⟩ := p
    by_cases hk : k = ip
    · simp [Registry.lookup, hk] at h
    · simp only [Registry.lookup, hk, if_false, List.cons_append] at h ⊢
      exact ih h

/-- After `getOrCreate` the key is always present. -/
theorem lookup_getOrCreate_exists (cfg : Config) (reg : Registry) (ip : String) (now : ℚ) :
    ∃ c, Registry.lookup (getOrCreate cfg reg ip now) ip = some c := by
  cases h : Registry.lookup reg ip with
  | some c =>
    refine ⟨c, ?_⟩
    simp only [getOrCreate, h]
  | none =>
    refine ⟨{ limiter := newLimiter cfg.rps cfg.burst now, lastSeen := 0 }, ?_⟩
    simp only [getOrCreate, h]
    rw [lookup_append_of_none _ _ _ h]
    simp [Registry.lookup]

/-- Applying `getOrCreate` to a registry that already holds the key leaves
it unchanged. -/
theorem getOrCreate_of_found (cfg : Config) (reg : Registry) (ip : String) (now : ℚ)
    (c : Client) (h : Registry.lookup reg ip = some c) :
    getOrCreate cfg reg ip now = reg := by
  simp only [getOrCreate, h]

/-- Membership in a swept registry: exactly the old entries whose idle age
does not strictly exceed the threshold. -/
theorem mem_sweep_iff (threshold now : ℚ) (reg : Registry) (e : String × Client) :
    e ∈ sweep threshold now reg ↔ e ∈ reg ∧ ¬ threshold < now - e.2.lastSeen := by
  simp [sweep, List.mem_filter]

/-- When the key is present after lookup-or-insert and touch, the registry
after the whole section is that registry with the mutated limiter written
back, whichever way the admission decision goes. -/
theorem registryStep_registry_eq (cfg : Config) (reg : Registry) (ip : String) (now : ℚ)
    (c : Client)
    (h : Registry.lookup (touch (getOrCreate cfg reg ip now) ip now) ip = some c) :
    (registryStep cfg reg ip now).registry
      = setLimiter (touch (getOrCreate cfg reg ip now) ip now) ip
          (Limiter.allow c.limiter now).1 := by
  unfold registryStep
  split
  · rename_i heq
    rw [h] at heq
    exact Option.noConfusion heq
  · rename_i c' heq
    rw [h] at heq
    injection heq with hcc
    subst hcc
    split
    · rfl
    · rfl

/-- Whatever the admission outcome, the registry section leaves the client
entry for `ip` present with `lastSeen` set to the request time. -/
theorem registryStep_lastSeen (cfg : Config) (reg : Registry) (ip : String) (now : ℚ) :
    ∃ c, Registry.lookup (registryStep cfg reg ip now).registry ip = some c ∧
      c.lastSeen = now := by
  obtain ⟨c0, hc0⟩ := lookup_getOrCreate_exists cfg reg ip now
  have h2 : Registry.lookup (touch (getOrCreate cfg reg ip now) ip now) ip
      = some { c0 with lastSeen := now } := by
    rw [touch, lookup_modify, hc0]
    rfl
  have h3 := registryStep_registry_eq cfg reg ip now _ h2
  refine ⟨{ limiter := (Limiter.allow c0.limiter now).1, lastSeen := now }, ?_, rfl⟩
  rw [h3, setLimiter, lookup_modify, h2]
  rfl

/-- The response written by the gate itself is determined by the terminal
state: nothing on `FORWARD`, the 429 rejection on `REJECT`, the 500 server
error on `ERROR`. -/
theorem handle_response_eq (cfg : Config) (reg : Registry) (addr : String) (now : ℚ) :
    (rateLimitHandle cfg reg addr now).response
      = match (rateLimitHandle cfg reg addr now).outcome with
        | Outcome.forward => none
        | Outcome.reject => some rateLimitExceededResponse
        | Outcome.error => some serverErrorResp := by
  unfold rateLimitHandle registryStep
  split
  · split
    · rfl
    · split
      · rfl
      · split
        · rfl
        · rfl
  · rfl

/--
Claim C2, counterexample: the claim asserts that a malformed peer address
terminates in ERROR regardless of `RateLimiterConfig.enabled`, because
identity extraction precedes the ENABLED check.  In the code the ENABLED
check comes first: with the limiter disabled, the malformed address
`"1.2.3.4"` (no port) is never parsed, the request terminates in FORWARD
and the downstream handler is invoked once.
-/
theorem c2_counterexample :
    splitHostPort "1.2.3.4" = none ∧
    (rateLimitHandle { rps := 2, burst := 4, enabled := false } [] "1.2.3.4" 0).outcome
      = Outcome.forward ∧
    ¬ (rateLimitHandle { rps := 2, burst := 4, enabled := false } [] "1.2.3.4" 0).outcome
      = Outcome.error ∧
    (rateLimitHandle { rps := 2, burst := 4, enabled := false } [] "1.2.3.4" 0).nextCalls
      = 1 := by
  decide

/--
Claim C2, amended: when the limiter is enabled, a request whose
transport-level peer address cannot be split into host and port terminates
in the ERROR state — surfacing the generic 500 server error, leaving the
registry untouched and never invoking the downstream handler.  (When the
limiter is disabled the address is never parsed and the request is
forwarded.)
-/
theorem c2_enabled_malformed_is_error (cfg : Config) (reg : Registry) (addr : String)
    (now : ℚ) (hen : cfg.enabled = true) (hmal : splitHostPort addr = none) :
    rateLimitHandle cfg reg addr now
      = { registry := reg, outcome := Outcome.error,
          response := some serverErrorResp, nextCalls := 0 } ∧
    serverErrorResp.status = 500 := by
  refine ⟨?_, rfl⟩
  simp [rateLimitHandle, hen, hmal]

/-- Concrete instance of the amended claim C2: the default (enabled)
configuration with the portless peer address `"1.2.3.4"`. -/
theorem c2_enabled_malformed_is_error_witness :
    rateLimitHandle defaultConfig [] "1.2.3.4" 0
      = { registry := [], outcome := Outcome.error,
          response := some serverErrorResp, nextCalls := 0 } ∧
    serverErrorResp.status = 500 :=
  c2_enabled_malformed_is_error defaultConfig [] "1.2.3.4" 0 rfl (by decide)

/-- Either a request terminates in FORWARD and the downstream handler runs
once, or it terminates in another state and the handler never runs. -/
theorem handle_nextCalls_shape (cfg : Config) (reg : Registry) (addr : String) (now : ℚ) :
    ((rateLimitHandle cfg reg addr now).outcome = Outcome.forward ∧
      (rateLimitHandle cfg reg addr now).nextCalls = 1) ∨
    (¬ (rateLimitHandle cfg reg addr now).outcome = Outcome.forward ∧
      (rateLimitHandle cfg reg addr now).nextCalls = 0) := by
  unfold rateLimitHandle registryStep
  split
  · split
    · exact Or.inr ⟨fun hc => Outcome.noConfusion hc, rfl⟩
    · split
      · exact Or.inr ⟨fun hc => Outcome.noConfusion hc, rfl⟩
      · split
        · exact Or.inl ⟨rfl, rfl⟩
        · exact Or.inr ⟨fun hc => Outcome.noConfusion hc, rfl⟩
  · exact Or.inl ⟨rfl, rfl⟩

/--
Claim C3: for every inbound request, the gate calls the wrapped downstream
handler exactly once when the request terminates in FORWARD and zero times
when it terminates in REJECT or ERROR.
-/
theorem c3_next_called_iff_forward (cfg : Config) (reg : Registry) (addr : String)
    (now : ℚ) :
    (rateLimitHandle cfg reg addr now).nextCalls
      = if (rateLimitHandle cfg reg addr now).outcome = Outcome.forward then 1 else 0 := by
  rcases handle_nextCalls_shape cfg reg addr now with ⟨h1, h2⟩ | ⟨h1, h2⟩
  · rw [h2, if_pos h1]
  · rw [h2, if_neg h1]

/--
Claim C4: a sweep with the 3-minute idle threshold removes every entry
whose last-seen lies more than 180 seconds in the past and retains every
entry at most 180 seconds old; in particular an entry 4 minutes old is
removed and an entry 2 minutes old is retained (see the witness).
-/
theorem c4_sweep_eviction (now : ℚ) (reg : Registry) (e : String × Client)
    (he : e ∈ reg) :
    (180 < now - e.2.lastSeen → e ∉ sweep 180 now reg) ∧
    (now - e.2.lastSeen ≤ 180 → e ∈ sweep 180 now reg) := by
  constructor
  · intro hage hmem
    exact ((mem_sweep_iff 180 now reg e).1 hmem).2 hage
  · intro hage
    exact (mem_sweep_iff 180 now reg e).2 ⟨he, not_lt.mpr hage⟩

/-- A client last seen at time 0, i.e. 4 minutes before the sweep at
time 240. -/
def staleClient : Client :=
  { limiter := newLimiter 2 4 0, lastSeen := 0 }

/-- A client last seen at time 120, i.e. 2 minutes before the sweep at
time 240. -/
def activeClient : Client :=
  { limiter := newLimiter 2 4 0, lastSeen := 120 }

/-- Concrete instance of claim C4: sweeping at time 240 removes the entry
last seen 4 minutes ago and retains the entry last seen 2 minutes ago. -/
theorem c4_sweep_eviction_witness :
    ("10.0.0.1", staleClient)
        ∉ sweep 180 240 [("10.0.0.1", staleClient), ("10.0.0.2", activeClient)] ∧
    ("10.0.0.2", activeClient)
        ∈ sweep 180 240 [("10.0.0.1", staleClient), ("10.0.0.2", activeClient)] :=
  ⟨(c4_sweep_eviction 240 _ _ (List.Mem.head _)).1 (by with_unfolding_all decide),
   (c4_sweep_eviction 240 _ _ (List.Mem.tail _ (List.Mem.head _))).2
     (by with_unfolding_all decide)⟩

/--
Claim C5: for every request that reaches the registry (limiter enabled and
identity extracted), the client entry's last-seen timestamp ends up equal
to the request time, whether the request is then admitted or rejected.
-/
theorem c5_lastSeen_updated (cfg : Config) (reg : Registry) (addr ip port : String)
    (now : ℚ) (hen : cfg.enabled = true)
    (hsplit : splitHostPort addr = some (ip, port)) :
    ∃ c, Registry.lookup (rateLimitHandle cfg reg addr now).registry ip = some c ∧
      c.lastSeen = now := by
  have h := registryStep_lastSeen cfg reg ip now
  simpa [rateLimitHandle, hen, hsplit] using h

/-- Concrete instance of claim C5: a first request from `10.0.0.1` under
the default configuration stamps its entry with the request time. -/
theorem c5_lastSeen_updated_witness :
    ∃ c, Registry.lookup
        (rateLimitHandle defaultConfig [] "10.0.0.1:4000" 0).registry "10.0.0.1"
        = some c ∧
      c.lastSeen = 0 :=
  c5_lastSeen_updated defaultConfig [] "10.0.0.1:4000" "10.0.0.1" "4000" 0 rfl (by decide)

/--
Claim C6: when the limiter is disabled, every request from every client is
forwarded and the registry is never populated — after any sequence of
requests the registry is exactly what it started as (no entry created, no
last-seen touched, no token consumed) and every outcome is FORWARD.
-/
theorem c6_disabled_all_forwarded (cfg : Config) (reg : Registry)
    (reqs : List (String × ℚ)) (h : cfg.enabled = false) :
    runRequests cfg reg reqs = (reg, reqs.map fun _ => Outcome.forward) := by
  induction reqs generalizing reg with
  | nil => rfl
  | cons r rest ih =>
    obtain ⟨addr, t⟩ := r
    have hstep : rateLimitHandle cfg reg addr t
        = { registry := reg, outcome := Outcome.forward, response := none,
            nextCalls := 1 } := by
      simp [rateLimitHandle, h]
    simp [runRequests, hstep, ih]

/-- Concrete instance of claim C6: three requests (one with a malformed
address) against a disabled limiter are all forwarded and leave the
registry empty. -/
theorem c6_disabled_all_forwarded_witness :
    runRequests { rps := 2, burst := 4, enabled := false } []
        [("1.2.3.4", 0), ("10.0.0.1:4000", 0), ("10.0.0.1:4000", 0)]
      = ([], [Outcome.forward, Outcome.forward, Outcome.forward]) :=
  c6_disabled_all_forwarded { rps := 2, burst := 4, enabled := false } []
    [("1.2.3.4", 0), ("10.0.0.1:4000", 0), ("10.0.0.1:4000", 0)] rfl

/--
Claim C7: the sweep is idempotent — at any fixed time, sweeping an
already-swept registry removes nothing further, so the second of two
back-to-back sweeps with no intervening requests is a no-op.
-/
theorem c7_sweep_idempotent (threshold now : ℚ) (reg : Registry) :
    sweep threshold now (sweep threshold now reg) = sweep threshold now reg := by
  simp [sweep, List.filter_filter]

/--
Claim C8: every request terminating in REJECT is answered with the
rate-limit-exceeded response: status 429 Too Many Requests, no
`Retry-After` header, and a single-field JSON error envelope as body.
-/
theorem c8_reject_response (cfg : Config) (reg : Registry) (addr : String) (now : ℚ)
    (h : (rateLimitHandle cfg reg addr now).outcome = Outcome.reject) :
    (rateLimitHandle cfg reg addr now).response = some rateLimitExceededResponse ∧
    rateLimitExceededResponse.status = 429 ∧
    (∀ p ∈ rateLimitExceededResponse.headers, ¬ p.1 = "Retry-After") ∧
    rateLimitExceededResponse.body = envelopeError "rate limit exceeded" := by
  refine ⟨?_, rfl, ?_, rfl⟩
  · rw [handle_response_eq, h]
  · decide

/-- Concrete instance of claim C8: with burst 0 every request is rejected,
and the rejection carries the 429 envelope and no Retry-After header. -/
theorem c8_reject_response_witness :
    (rateLimitHandle { rps := 2, burst := 0, enabled := true } [] "10.0.0.1:4000" 0).response
        = some rateLimitExceededResponse ∧
    rateLimitExceededResponse.status = 429 ∧
    (∀ p ∈ rateLimitExceededResponse.headers, ¬ p.1 = "Retry-After") ∧
    rateLimitExceededResponse.body = envelopeError "rate limit exceeded" :=
  c8_reject_response { rps := 2, burst := 0, enabled := true } [] "10.0.0.1:4000" 0
    (by decide)

/--
Claim C9: serialized by the registry mutex, any number of lookup-or-create
calls for one identity starting from an empty registry produce exactly the
single client entry created by the first call (the race's unique winner);
in particular the registry holds exactly one entry for that identity, and
every later call observes the first call's entry unchanged.
-/
theorem c9_getOrCreate_single_winner (cfg : Config) (ip : String) (t : ℚ)
    (ts : List ℚ) :
    getOrCreateN cfg [] ip (t :: ts)
      = [(ip, { limiter := newLimiter cfg.rps cfg.burst t, lastSeen := 0 })] ∧
    countKey (getOrCreateN cfg [] ip (t :: ts)) ip = 1 := by
  have hfix : ∀ (ts' : List ℚ) (reg : Registry) (c : Client),
      Registry.lookup reg ip = some c → getOrCreateN cfg reg ip ts' = reg := by
    intro ts'
    induction ts' with
    | nil =>
      intro reg c h
      rfl
    | cons t' rest ih =>
      intro reg c h
      have hstep := getOrCreate_of_found cfg reg ip t' c h
      calc getOrCreateN cfg reg ip (t' :: rest)
          = getOrCreateN cfg (getOrCreate cfg reg ip t') ip rest := rfl
        _ = getOrCreateN cfg reg ip rest := by rw [hstep]
        _ = reg := ih reg c h
  have h1 : getOrCreateN cfg [] ip (t :: ts)
      = [(ip, { limiter := newLimiter cfg.rps cfg.burst t, lastSeen := 0 })] := by
    calc getOrCreateN cfg [] ip (t :: ts)
        = getOrCreateN cfg
            [(ip, { limiter := newLimiter cfg.rps cfg.burst t, lastSeen := 0 })] ip ts := rfl
      _ = [(ip, { limiter := newLimiter cfg.rps cfg.burst t, lastSeen := 0 })] :=
          hfix ts _ { limiter := newLimiter cfg.rps cfg.burst t, lastSeen := 0 }
            (by simp [Registry.lookup])
  refine ⟨h1, ?_⟩
  rw [h1]
  simp [countKey]

/--
Claim C10: the sweep comparison is strict — an entry already in the
registry survives the 3-minute sweep iff its idle age does not strictly
exceed 180 seconds, so an entry whose last-seen is exactly 180 seconds old
is retained, not removed.
-/
theorem c10_sweep_strict_threshold (now : ℚ) (reg : Registry) (e : String × Client)
    (he : e ∈ reg) :
    (e ∈ sweep 180 now reg ↔ ¬ 180 < now - e.2.lastSeen) ∧
    (e.2.lastSeen = now - 180 → e ∈ sweep 180 now reg) := by
  constructor
  · rw [mem_sweep_iff]
    exact and_iff_right he
  · intro hage
    rw [mem_sweep_iff]
    refine ⟨he, ?_⟩
    rw [hage]
    simp

/-- Concrete instance of claim C10: an entry exactly 180 seconds idle
(last seen at 0, swept at 180) is retained by the sweep. -/
theorem c10_sweep_strict_threshold_witness :
    ("10.0.0.1", staleClient) ∈ sweep 180 180 [("10.0.0.1", staleClient)] :=
  (c10_sweep_strict_threshold 180 _ _ (List.Mem.head _)).2
    (by with_unfolding_all decide)

end Greenlight
